import Mathlib

/-!
Shallow embedding of the GoGuestBook server (src/main.go) and proofs about
its entry lifecycle: submission gating (anti-spam code, field validation,
rate limiting), moderation (approve / reject / comment), notification
triggers and the public listing.

Modelling conventions:
  * the SQLite `entries` table is a `List Entry`; SQL statements are
    translated row-by-row (`UPDATE ... WHERE id = ?` maps over the list,
    `SELECT ... LIMIT 1` is `List.find?`, rows-affected is a filter count);
  * timestamps and durations are `Int` (Go `time.Time` / `time.Duration`
    compared only via `time.Since(t) < d`, i.e. `now - t < d`);
  * Go `len` on a string is its UTF-8 byte count, modelled by `goLen`;
  * the SMTP transport (`smtp.SendMail`) is an oracle `emailOk : Bool`;
    every attempted notification is recorded in `mails`, a transport
    failure only adds a log line, exactly as in the Go handlers;
  * `crypto/rand` based id generation is an oracle argument `newId`;
  * each HTTP handler becomes a function from its decoded inputs and the
    current store to an `OpResult` (status, body, new store, mails, logs).
-/

namespace GoGuestBook

/-- The persisted guestbook entry (struct `Entry`, src/main.go:25, restricted
to the columns of the `entries` table; the transient `Code` field travels in
`Submission` instead). `approved` is `int8` in Go, carried here as `Int`
(values used: -1 rejected, 0 pending, 1 approved). -/
structure Entry where
  id : String
  name : String
  email : String
  message : String
  approved : Int
  comment : String
  ip : String
  createdAt : Int
  deriving DecidableEq

/-- The configuration fields consumed by the request handlers
(struct `Configuration`, src/main.go:38). The SMTP settings are used only
inside the mail transport, which is modelled by the `emailOk` oracle, so
they do not appear here. -/
structure Config where
  adminEmail : String
  url : String
  entryWaitDuration : Int
  antiSpamCode : String
  deriving DecidableEq

/-- One attempted outbound mail (arguments of `sendEmail`, src/main.go:152;
the Go parameter `to` is `recipient` here because `to` is reserved in Lean). -/
structure Mail where
  recipient : String
  subject : String
  body : String
  deriving DecidableEq

/-- The log lines the handlers can emit (src/main.go:250, 253, 352, 424). -/
inductive LogLine where
  | newEntry (url : String)
  | adminMailFailed
  | authorMailFailed
  deriving DecidableEq

/-- The redacted row returned by the public listing: the SELECT at
src/main.go:176 projects to name, message, approved, comment, created_at;
there are no id or ip components in this type. -/
structure PublicEntry where
  name : String
  message : String
  approved : Int
  comment : String
  createdAt : Int
  deriving DecidableEq

/-- The HTTP response bodies the modelled handlers produce. -/
inductive RespBody where
  | empty
  | text (s : String)
  | errorTag (tag : String)
  | successTrue
  | publicList (l : List PublicEntry)
  deriving DecidableEq

/-- Outcome of one handler invocation: HTTP status, response body, the
store after the request, the mails whose send was attempted, and log lines. -/
structure OpResult where
  status : Nat
  body : RespBody
  store : List Entry
  mails : List Mail
  logs : List LogLine
  deriving DecidableEq

/-! ### Mail template constants (src/main.go:52) -/

def mailEntryApprovedSubject : String := "Gästebuch-Eintrag freigeschaltet"

def mailEntryApprovedBody (url : String) : String :=
  "Dein Gästebuch-Eintrag wurde freigeschaltet: " ++ url

def mailEntryCommentSubject : String := "Gästebuch-Eintrag kommentiert"

def mailEntryCommentBody (url : String) : String :=
  "Dein Gästebuch-Eintrag wurde kommentiert: " ++ url

def mailAdminEntryAddedSubject : String := "Neuer Gästebuch-Eintrag"

def mailAdminEntryAddedBody (url : String) : String :=
  "Neuer Gästebucheintrag, bitte prüfen und freischalten: " ++ url

/-! ### Validation (src/main.go:58, 262, 282) -/

def nameMinLen : Nat := 3
def nameMaxLen : Nat := 100
def emailMinLen : Nat := 6
def emailMaxLen : Nat := 100
def messageMinLen : Nat := 10
def messageMaxLen : Nat := 2000

/-- Go `len` on a string counts UTF-8 bytes. -/
def goLen (s : String) : Nat := s.utf8ByteSize

/-- Character class `[a-zA-Z0-9._%+-]` of the email regex
(`Char.isAlphanum` is ASCII letters and digits only, as in the regex). -/
def emailLocalChar (c : Char) : Bool :=
  c.isAlphanum || c == '.' || c == '_' || c == '%' || c == '+' || c == '-'

/-- Character class `[a-zA-Z0-9.-]` of the email regex. -/
def emailDomainChar (c : Char) : Bool :=
  c.isAlphanum || c == '.' || c == '-'

/-- Splits a character list at the first occurrence of `sep`:
returns the (sep-free) part before it and the part after it, or `none`
when `sep` does not occur. -/
def splitAtChar (sep : Char) : List Char → Option (List Char × List Char)
  | [] => none
  | c :: cs =>
    if c = sep then some ([], cs)
    else (splitAtChar sep cs).map (fun p => (c :: p.1, p.2))

/-- Translation of `isValidEmail` (src/main.go:282): Go matches the email
against the anchored regex  `^[a-zA-Z0-9._%+-]+@[a-zA-Z0-9.-]+\.[a-zA-Z]{2,}$` .
Since `@` belongs to neither character class, a match splits the string at its
first (only) `@`; since the part after the last `.` must be letters only, the
`\.` of the pattern necessarily matches the last dot of the domain part.
The equivalence with the direct regex reading is proved in
`isValidEmail_iff_matches`. `checkEmailDomain` handles the part after the
`@`. -/
def checkEmailDomain (rest : List Char) : Bool :=
  match splitAtChar '.' rest.reverse with
  | none => false
  | some (tldRev, domRev) =>
    !domRev.isEmpty && domRev.all emailDomainChar &&
      decide (2 ≤ tldRev.length) && tldRev.all Char.isAlpha

/-- See `checkEmailDomain`; this is the whole-address matcher. -/
def isValidEmail (email : String) : Bool :=
  match splitAtChar '@' email.toList with
  | none => false
  | some (lp, rest) =>
    !lp.isEmpty && lp.all emailLocalChar && checkEmailDomain rest

/-- Direct reading of the anchored regex
`^[a-zA-Z0-9._%+-]+@[a-zA-Z0-9.-]+\.[a-zA-Z]{2,}$` : the character sequence
decomposes as localPart ++ "@" ++ domain ++ "." ++ tld where the local part is
a nonempty run of `emailLocalChar`, the domain a nonempty run of
`emailDomainChar`, and the tld at least two ASCII letters. -/
def MatchesEmailRegex (email : String) : Prop :=
  ∃ lp dom tld : List Char,
    email.toList = lp ++ '@' :: (dom ++ '.' :: tld) ∧
    lp ≠ [] ∧ (∀ c ∈ lp, emailLocalChar c) ∧
    dom ≠ [] ∧ (∀ c ∈ dom, emailDomainChar c) ∧
    2 ≤ tld.length ∧ (∀ c ∈ tld, c.isAlpha)

/-- Translation of `validateEntry` (src/main.go:262), as used by its caller:
`true` iff Go returns `nil` (no validation error). The Go function reports
distinct error strings internally, but the handler maps every failure to the
same generic response, so only the boolean outcome is observable. -/
def validateEntry (name email message : String) : Bool :=
  decide (nameMinLen ≤ goLen name) && decide (goLen name ≤ nameMaxLen) &&
  decide (emailMinLen ≤ goLen email) && decide (goLen email ≤ emailMaxLen) &&
  decide (messageMinLen ≤ goLen message) && decide (goLen message ≤ messageMaxLen) &&
  isValidEmail email

/-! ### Request inputs -/

/-- The decoded JSON body of `POST /api/entries` (src/main.go:188). The
decoder fills an `Entry` struct, but only these fields influence the handler:
a client-supplied id is overwritten by `generateID`, `ip` is not decoded
(json tag "-"), and the INSERT at src/main.go:241 does not write the decoded
`approved`, `comment` or `created_at` (the table defaults apply). -/
structure Submission where
  name : String
  email : String
  message : String
  code : String
  deriving DecidableEq

/-- Transport-level request data used by `createEntry` (src/main.go:211):
the `X-Forwarded-For` header value ("" when the header is absent) and the
host part of the peer address `r.RemoteAddr`. `net.SplitHostPort` is
standard-library parsing of a transport-produced `host:port` string and is
modelled as already performed; its failure branch cannot fire on addresses
the transport itself produced. -/
structure RequestMeta where
  xff : String
  remoteHost : String
  deriving DecidableEq

/-- Address resolution (src/main.go:211): the forwarded-for header when
non-empty, otherwise the peer host. -/
def resolveIP (req : RequestMeta) : String :=
  if req.xff ≠ "" then req.xff else req.remoteHost

/-! ### Store queries -/

/-- `SELECT created_at FROM entries WHERE ip = ? ORDER BY created_at DESC
LIMIT 1` (src/main.go:220): the greatest created_at among rows with the given
ip, or `none` when no row matches (`sql.ErrNoRows`). -/
def lastSubmissionTime (store : List Entry) (ip : String) : Option Int :=
  ((store.filter (fun e => e.ip = ip)).map (fun e => e.createdAt)).max?

/-- `db.Get(..., "SELECT ... FROM entries WHERE id = ?", id)` : the first
row with the given id, or `none` (`sql.ErrNoRows`). -/
def findEntry (store : List Entry) (id : String) : Option Entry :=
  store.find? (fun e => e.id = id)

/-- Rows matched by `WHERE id = ?`, i.e. `result.RowsAffected()` of the
UPDATE statements (SQLite counts every matched row, also when the stored
value already equals the assigned one). -/
def rowsWithId (store : List Entry) (id : String) : Nat :=
  (store.filter (fun e => e.id = id)).length

/-! ### Handlers -/

/-- Tail of `createEntry` after the rate-limit gate (src/main.go:233):
generate the id (here the oracle `newId`), INSERT the row (primary-key
violation when the id already exists surfaces as a 500), log and notify the
admin best-effort, and answer 201. -/
def createEntryInsert (cfg : Config) (store : List Entry) (sub : Submission)
    (ip : String) (now : Int) (newId : String) (emailOk : Bool) : OpResult :=
  if store.any (fun e => e.id = newId) then
    { status := 500, body := .text "UNIQUE constraint failed: entries.id",
      store := store, mails := [], logs := [] }
  else
    { status := 201, body := .successTrue,
      store := store ++
        [{ id := newId, name := sub.name, email := sub.email,
           message := sub.message, approved := 0, comment := "",
           ip := ip, createdAt := now }],
      mails := [{ recipient := cfg.adminEmail,
                  subject := mailAdminEntryAddedSubject,
                  body := mailAdminEntryAddedBody (cfg.url ++ "?GgbEntryID=" ++ newId) }],
      logs := [.newEntry (cfg.url ++ "?GgbEntryID=" ++ newId)] ++
        (if emailOk then [] else [.adminMailFailed]) }

/-- Handler of `POST /api/entries` (`createEntry`, src/main.go:186), starting
after a successful JSON decode: anti-spam code gate, field validation,
per-address rate limit, then insert and admin notification. -/
def createEntry (cfg : Config) (store : List Entry) (sub : Submission)
    (req : RequestMeta) (now : Int) (newId : String) (emailOk : Bool) : OpResult :=
  if sub.code ≠ cfg.antiSpamCode then
    { status := 400, body := .errorTag "code", store := store, mails := [], logs := [] }
  else if !validateEntry sub.name sub.email sub.message then
    { status := 400, body := .errorTag "validation", store := store, mails := [], logs := [] }
  else
    match lastSubmissionTime store (resolveIP req) with
    | some t =>
      if now - t < cfg.entryWaitDuration then
        { status := 429, body := .errorTag "postlimit", store := store, mails := [], logs := [] }
      else
        createEntryInsert cfg store sub (resolveIP req) now newId emailOk
    | none => createEntryInsert cfg store sub (resolveIP req) now newId emailOk

/-- Result of a handler whose initial `db.Get` failed with `sql.ErrNoRows`:
`http.Error(w, err.Error(), http.StatusInternalServerError)`. -/
def noRows500 (store : List Entry) : OpResult :=
  { status := 500, body := .text "sql: no rows in result set",
    store := store, mails := [], logs := [] }

/-- Tail of `approveEntry` (src/main.go:331) once the `db.Get` has returned
row `old`: `UPDATE entries SET approved = 1 WHERE id = ?`, the rows-affected
check, then the guarded author notification. -/
def approveEntryFound (cfg : Config) (store : List Entry) (id : String)
    (emailOk : Bool) (old : Entry) : OpResult :=
  if rowsWithId store id = 0 then
    { status := 404, body := .text "Entry not found",
      store := store.map (fun e => if e.id = id then { e with approved := 1 } else e),
      mails := [], logs := [] }
  else if old.email ≠ "" ∧ old.approved = 0 then
    { status := 204, body := .empty,
      store := store.map (fun e => if e.id = id then { e with approved := 1 } else e),
      mails := [{ recipient := old.email,
                  subject := mailEntryApprovedSubject,
                  body := mailEntryApprovedBody cfg.url }],
      logs := if emailOk then [] else [.authorMailFailed] }
  else
    { status := 204, body := .empty,
      store := store.map (fun e => if e.id = id then { e with approved := 1 } else e),
      mails := [], logs := [] }

/-- Handler of `POST /api/entries/id/approve` (`approveEntry`,
src/main.go:319). Note the `db.Get` comes first and its `sql.ErrNoRows`
failure is not special-cased, so a missing id answers 500 with the SQL error
text; the 404 branch below it is unreachable for a missing id. -/
def approveEntry (cfg : Config) (store : List Entry) (id : String)
    (emailOk : Bool) : OpResult :=
  match findEntry store id with
  | none => noRows500 store
  | some old => approveEntryFound cfg store id emailOk old

/-- Handler of `POST /api/entries/id/reject` (`rejectEntry`,
src/main.go:359): unconditional `UPDATE entries SET approved = -1`, 404 when
no row matched, never any mail. -/
def rejectEntry (store : List Entry) (id : String) : OpResult :=
  if rowsWithId store id = 0 then
    { status := 404, body := .text "Entry not found",
      store := store.map (fun e => if e.id = id then { e with approved := -1 } else e),
      mails := [], logs := [] }
  else
    { status := 204, body := .empty,
      store := store.map (fun e => if e.id = id then { e with approved := -1 } else e),
      mails := [], logs := [] }

/-- Tail of `addComment` (src/main.go:402) once `db.Get` returned row `old`
and the body decoded to `text`: `UPDATE entries SET comment = ? WHERE id = ?`,
the rows-affected check, then the guarded author notification. -/
def addCommentUpdate (cfg : Config) (store : List Entry) (id : String)
    (text : String) (emailOk : Bool) (old : Entry) : OpResult :=
  if rowsWithId store id = 0 then
    { status := 404, body := .text "Entry not found",
      store := store.map (fun e => if e.id = id then { e with comment := text } else e),
      mails := [], logs := [] }
  else if old.email ≠ "" ∧ old.comment = "" then
    { status := 204, body := .empty,
      store := store.map (fun e => if e.id = id then { e with comment := text } else e),
      mails := [{ recipient := old.email,
                  subject := mailEntryCommentSubject,
                  body := mailEntryCommentBody cfg.url }],
      logs := if emailOk then [] else [.authorMailFailed] }
  else
    { status := 204, body := .empty,
      store := store.map (fun e => if e.id = id then { e with comment := text } else e),
      mails := [], logs := [] }

/-- Handler of `PUT /api/entries/id/comment` (`addComment`, src/main.go:380),
with `reqBody` the JSON decode outcome of the request body (`none` =
malformed). As in `approveEntry`, the initial `db.Get` turns a missing id
into a 500, before the body is even decoded. -/
def addComment (cfg : Config) (store : List Entry) (id : String)
    (reqBody : Option String) (emailOk : Bool) : OpResult :=
  match findEntry store id with
  | none => noRows500 store
  | some old =>
    match reqBody with
    | none =>
      { status := 400, body := .text "invalid request body",
        store := store, mails := [], logs := [] }
    | some text => addCommentUpdate cfg store id text emailOk old

/-- Projection of the SELECT column list at src/main.go:176:
name, message, approved, comment, created_at. -/
def projectPublic (e : Entry) : PublicEntry :=
  { name := e.name, message := e.message, approved := e.approved,
    comment := e.comment, createdAt := e.createdAt }

/-- `ORDER BY created_at DESC` as a comparison on rows. -/
def createdDesc (a b : Entry) : Bool := decide (b.createdAt ≤ a.createdAt)

/-- Handler of `GET /api/entries` (`getApprovedEntries`, src/main.go:172):
`SELECT name, message, approved, comment, created_at FROM entries WHERE
approved = 1 ORDER by created_at DESC`. -/
def getApprovedEntries (store : List Entry) : List PublicEntry :=
  ((store.filter (fun e => e.approved = 1)).mergeSort createdDesc).map projectPublic

/-! ### Observation helpers -/

/-- The caller-visible part of a handler outcome: everything except the
server-side log. Two runs with equal `dropLogs` report the same status and
body to the HTTP caller, leave the same store, and attempted the same
notifications. -/
def dropLogs (r : OpResult) : OpResult := { r with logs := [] }

/-- Entry `b` agrees with entry `a` on every stored column except possibly
`approved`. -/
def AgreesExceptApproved (a b : Entry) : Prop :=
  b.id = a.id ∧ b.name = a.name ∧ b.email = a.email ∧ b.message = a.message ∧
  b.ip = a.ip ∧ b.comment = a.comment ∧ b.createdAt = a.createdAt

/-- Entry `b` agrees with entry `a` on every stored column except possibly
`comment`. -/
def AgreesExceptComment (a b : Entry) : Prop :=
  b.id = a.id ∧ b.name = a.name ∧ b.email = a.email ∧ b.message = a.message ∧
  b.ip = a.ip ∧ b.approved = a.approved ∧ b.createdAt = a.createdAt

/-! ### Concrete fixtures for witnesses and counterexamples -/

/-- A sample configuration: 60 second wait, shared code "s3cret". -/
def cfgEx : Config :=
  { adminEmail := "admin@example.com", url := "https://gb.example",
    entryWaitDuration := 60, antiSpamCode := "s3cret" }

/-- A sample pending entry with a non-empty email and empty comment. -/
def entryEx : Entry :=
  { id := "a1", name := "Alice Smith", email := "alice@example.com",
    message := "Hello there, this is my message.", approved := 0,
    comment := "", ip := "1.2.3.4", createdAt := 100 }

/-- The example submission of spec section 8, with the configured code. -/
def subEx : Submission :=
  { name := "Alice Smith", email := "alice@example.com",
    message := "Hello there, this is my message.", code := "s3cret" }

/-- A request without forwarded-for header, from peer 1.2.3.4. -/
def reqEx : RequestMeta := { xff := "", remoteHost := "1.2.3.4" }

/-- A reachable store holding one rejected entry: starting from the empty
store, one valid submission at time 100 (id "id1"), then Reject. -/
def storeRejected : List Entry :=
  (rejectEntry (createEntry cfgEx [] subEx reqEx 100 "id1" true).store "id1").store

/-! ### Handler unfolding lemmas -/

theorem approveEntry_eq_none {store : List Entry} {id : String}
    (cfg : Config) (emailOk : Bool) (h : findEntry store id = none) :
    approveEntry cfg store id emailOk = noRows500 store := by
  unfold approveEntry; rw [h]

theorem approveEntry_eq_found {store : List Entry} {id : String} {old : Entry}
    (cfg : Config) (emailOk : Bool) (h : findEntry store id = some old) :
    approveEntry cfg store id emailOk = approveEntryFound cfg store id emailOk old := by
  unfold approveEntry; rw [h]

theorem addComment_eq_none {store : List Entry} {id : String}
    (cfg : Config) (reqBody : Option String) (emailOk : Bool)
    (h : findEntry store id = none) :
    addComment cfg store id reqBody emailOk = noRows500 store := by
  unfold addComment; rw [h]

theorem addComment_eq_found {store : List Entry} {id : String} {old : Entry}
    (cfg : Config) (text : String) (emailOk : Bool)
    (h : findEntry store id = some old) :
    addComment cfg store id (some text) emailOk =
      addCommentUpdate cfg store id text emailOk old := by
  unfold addComment; rw [h]

theorem createEntry_eq_gated {cfg : Config} {sub : Submission}
    (store : List Entry) (req : RequestMeta) (now : Int) (newId : String)
    (emailOk : Bool) (hcode : sub.code = cfg.antiSpamCode)
    (hval : validateEntry sub.name sub.email sub.message = true) :
    createEntry cfg store sub req now newId emailOk =
      (match lastSubmissionTime store (resolveIP req) with
       | some t =>
         if now - t < cfg.entryWaitDuration then
           { status := 429, body := .errorTag "postlimit", store := store,
             mails := [], logs := [] }
         else createEntryInsert cfg store sub (resolveIP req) now newId emailOk
       | none => createEntryInsert cfg store sub (resolveIP req) now newId emailOk) := by
  unfold createEntry
  rw [if_neg (fun hne => hne hcode), hval]
  simp

theorem createEntry_eq_badCode {cfg : Config} {sub : Submission}
    (store : List Entry) (req : RequestMeta) (now : Int) (newId : String)
    (emailOk : Bool) (hcode : sub.code ≠ cfg.antiSpamCode) :
    createEntry cfg store sub req now newId emailOk =
      { status := 400, body := .errorTag "code", store := store,
        mails := [], logs := [] } := by
  unfold createEntry
  rw [if_pos hcode]

theorem createEntry_eq_badValidation {cfg : Config} {sub : Submission}
    (store : List Entry) (req : RequestMeta) (now : Int) (newId : String)
    (emailOk : Bool) (hcode : sub.code = cfg.antiSpamCode)
    (hval : validateEntry sub.name sub.email sub.message = false) :
    createEntry cfg store sub req now newId emailOk =
      { status := 400, body := .errorTag "validation", store := store,
        mails := [], logs := [] } := by
  unfold createEntry
  rw [if_neg (fun hne => hne hcode), hval]
  rfl

theorem createEntry_eq_limited {cfg : Config} {sub : Submission} {t : Int}
    (store : List Entry) (req : RequestMeta) (now : Int) (newId : String)
    (emailOk : Bool) (hcode : sub.code = cfg.antiSpamCode)
    (hval : validateEntry sub.name sub.email sub.message = true)
    (hl : lastSubmissionTime store (resolveIP req) = some t)
    (hwait : now - t < cfg.entryWaitDuration) :
    createEntry cfg store sub req now newId emailOk =
      { status := 429, body := .errorTag "postlimit", store := store,
        mails := [], logs := [] } := by
  rw [createEntry_eq_gated store req now newId emailOk hcode hval, hl]
  exact if_pos hwait

theorem createEntry_eq_insert_some {cfg : Config} {sub : Submission} {t : Int}
    (store : List Entry) (req : RequestMeta) (now : Int) (newId : String)
    (emailOk : Bool) (hcode : sub.code = cfg.antiSpamCode)
    (hval : validateEntry sub.name sub.email sub.message = true)
    (hl : lastSubmissionTime store (resolveIP req) = some t)
    (hwait : ¬(now - t < cfg.entryWaitDuration)) :
    createEntry cfg store sub req now newId emailOk =
      createEntryInsert cfg store sub (resolveIP req) now newId emailOk := by
  rw [createEntry_eq_gated store req now newId emailOk hcode hval, hl]
  exact if_neg hwait

theorem createEntry_eq_insert_none {cfg : Config} {sub : Submission}
    (store : List Entry) (req : RequestMeta) (now : Int) (newId : String)
    (emailOk : Bool) (hcode : sub.code = cfg.antiSpamCode)
    (hval : validateEntry sub.name sub.email sub.message = true)
    (hl : lastSubmissionTime store (resolveIP req) = none) :
    createEntry cfg store sub req now newId emailOk =
      createEntryInsert cfg store sub (resolveIP req) now newId emailOk := by
  rw [createEntry_eq_gated store req now newId emailOk hcode hval, hl]

/-- `findEntry` returning a row means the UPDATE's `WHERE id = ?` matches at
least one row, so `RowsAffected` is not zero. -/
theorem rowsWithId_ne_zero_of_found {store : List Entry} {id : String} {old : Entry}
    (h : findEntry store id = some old) : rowsWithId store id ≠ 0 := by
  have hmem : old ∈ store := List.mem_of_find?_eq_some h
  have hpred : old.id = id := by
    have := List.find?_some h
    simpa using this
  have : old ∈ store.filter (fun e => e.id = id) :=
    List.mem_filter.mpr ⟨hmem, by simpa using hpred⟩
  unfold rowsWithId
  intro hlen
  rw [List.length_eq_zero] at hlen
  rw [hlen] at this
  simp at this

theorem findEntry_eq_none_iff {store : List Entry} {id : String} :
    findEntry store id = none ↔ ∀ e ∈ store, e.id ≠ id := by
  unfold findEntry
  rw [List.find?_eq_none]
  constructor
  · intro h e he; have := h e he; simpa using this
  · intro h e he; simpa using h e he

/-! ### Email matcher correctness -/

theorem splitAtChar_some {sep : Char} :
    ∀ {l pre post : List Char}, splitAtChar sep l = some (pre, post) →
      l = pre ++ sep :: post ∧ sep ∉ pre := by
  intro l
  induction l with
  | nil => intro pre post h; simp [splitAtChar] at h
  | cons c cs ih =>
    intro pre post h
    by_cases hc : c = sep
    · simp only [splitAtChar, if_pos hc, Option.some.injEq, Prod.mk.injEq] at h
      obtain ⟨h1, h2⟩ := h
      subst h1; subst h2; subst hc
      simp
    · simp only [splitAtChar, if_neg hc] at h
      rcases hsp : splitAtChar sep cs with _ | ⟨p1, p2⟩
      · rw [hsp] at h; simp at h
      · rw [hsp] at h
        simp at h
        obtain ⟨h1, h2⟩ := h
        obtain ⟨ha, hb⟩ := ih hsp
        subst h1; subst h2; subst ha
        refine ⟨by simp, ?_⟩
        intro hmem
        rcases List.mem_cons.mp hmem with h | h
        · exact hc h.symm
        · exact hb h

theorem splitAtChar_append {sep : Char} :
    ∀ {pre : List Char} (post : List Char), sep ∉ pre →
      splitAtChar sep (pre ++ sep :: post) = some (pre, post) := by
  intro pre
  induction pre with
  | nil => intro post _; simp [splitAtChar]
  | cons c cs ih =>
    intro post h
    have hc : ¬(c = sep) := fun e => h (by simp [e])
    have hcs : sep ∉ cs := fun e => h (by simp [e])
    simp [splitAtChar, hc, ih post hcs]

theorem emailLocalChar_ne_at {c : Char} (h : emailLocalChar c = true) : c ≠ '@' := by
  intro he; subst he; revert h; decide

theorem isAlpha_ne_dot {c : Char} (h : c.isAlpha = true) : c ≠ '.' := by
  intro he; subst he; revert h; decide

theorem checkEmailDomain_eq_none {rest : List Char}
    (h : splitAtChar '.' rest.reverse = none) : checkEmailDomain rest = false := by
  unfold checkEmailDomain; rw [h]

theorem checkEmailDomain_eq_some {rest tldRev domRev : List Char}
    (h : splitAtChar '.' rest.reverse = some (tldRev, domRev)) :
    checkEmailDomain rest =
      (!domRev.isEmpty && domRev.all emailDomainChar &&
        decide (2 ≤ tldRev.length) && tldRev.all Char.isAlpha) := by
  unfold checkEmailDomain; rw [h]

theorem isValidEmail_eq_none {email : String}
    (h : splitAtChar '@' email.toList = none) : isValidEmail email = false := by
  unfold isValidEmail; rw [h]

theorem isValidEmail_eq_some {email : String} {lp rest : List Char}
    (h : splitAtChar '@' email.toList = some (lp, rest)) :
    isValidEmail email = (!lp.isEmpty && lp.all emailLocalChar && checkEmailDomain rest) := by
  unfold isValidEmail; rw [h]

/-- The executable matcher `isValidEmail` recognises exactly the language of
the regex `^[a-zA-Z0-9._%+-]+@[a-zA-Z0-9.-]+\.[a-zA-Z]{2,}$` read directly as
a decomposition property. -/
theorem isValidEmail_iff_matches (email : String) :
    isValidEmail email = true ↔ MatchesEmailRegex email := by
  constructor
  · intro h
    rcases hsp : splitAtChar '@' email.toList with _ | ⟨lp, rest⟩
    · rw [isValidEmail_eq_none hsp] at h; simp at h
    · rw [isValidEmail_eq_some hsp] at h
      rcases hsp2 : splitAtChar '.' rest.reverse with _ | ⟨tldRev, domRev⟩
      · rw [checkEmailDomain_eq_none hsp2] at h; simp at h
      · rw [checkEmailDomain_eq_some hsp2] at h
        simp only [Bool.and_eq_true, List.all_eq_true, Bool.not_eq_eq_eq_not,
          Bool.not_true, List.isEmpty_eq_false, decide_eq_true_eq] at h
        obtain ⟨⟨hlpne, hlpc⟩, ⟨⟨hdomne, hdomc⟩, htldlen⟩, htldc⟩ := h
        obtain ⟨heq1, _⟩ := splitAtChar_some hsp
        obtain ⟨heq2, _⟩ := splitAtChar_some hsp2
        have hrest : rest = domRev.reverse ++ '.' :: tldRev.reverse := by
          have := congrArg List.reverse heq2
          simpa [List.reverse_append] using this
        refine ⟨lp, domRev.reverse, tldRev.reverse, ?_, hlpne, hlpc, ?_, ?_, ?_, ?_⟩
        · rw [heq1, hrest]
        · simp [hdomne]
        · intro c hc; exact hdomc c (List.mem_reverse.mp hc)
        · simpa using htldlen
        · intro c hc; exact htldc c (List.mem_reverse.mp hc)
  · rintro ⟨lp, dom, tld, heq, hlp, hlpc, hdom, hdomc, htl, htldc⟩
    have hat : '@' ∉ lp := by
      intro hmem; exact emailLocalChar_ne_at (hlpc _ hmem) rfl
    have h1 : splitAtChar '@' email.toList = some (lp, dom ++ '.' :: tld) := by
      rw [heq]; exact splitAtChar_append _ hat
    have hdotrev : '.' ∉ tld.reverse := by
      intro hmem
      exact isAlpha_ne_dot (htldc _ (List.mem_reverse.mp hmem)) rfl
    have hrev : (dom ++ '.' :: tld).reverse = tld.reverse ++ '.' :: dom.reverse := by
      simp [List.reverse_append]
    have h2 : splitAtChar '.' (dom ++ '.' :: tld).reverse =
        some (tld.reverse, dom.reverse) := by
      rw [hrev]; exact splitAtChar_append _ hdotrev
    rw [isValidEmail_eq_some h1, checkEmailDomain_eq_some h2]
    simp only [Bool.and_eq_true, List.all_eq_true, Bool.not_eq_eq_eq_not,
      Bool.not_true, List.isEmpty_eq_false, decide_eq_true_eq]
    refine ⟨⟨hlp, hlpc⟩, ⟨⟨by simp [hdom], ?_⟩, by simpa using htl⟩, ?_⟩
    · intro c hc; exact hdomc c (List.mem_reverse.mp hc)
    · intro c hc; exact htldc c (List.mem_reverse.mp hc)

/-! ### Store shape lemmas -/

theorem Entry.setApproved_self {e : Entry} {v : Int} (h : e.approved = v) :
    { e with approved := v } = e := by
  cases e; dsimp at h; subst h; rfl

theorem Entry.setComment_self {e : Entry} {v : String} (h : e.comment = v) :
    { e with comment := v } = e := by
  cases e; dsimp at h; subst h; rfl

theorem approveEntryFound_store (cfg : Config) (store : List Entry) (id : String)
    (emailOk : Bool) (old : Entry) :
    (approveEntryFound cfg store id emailOk old).store =
      store.map (fun e => if e.id = id then { e with approved := 1 } else e) := by
  unfold approveEntryFound
  split_ifs <;> rfl

theorem rejectEntry_store (store : List Entry) (id : String) :
    (rejectEntry store id).store =
      store.map (fun e => if e.id = id then { e with approved := -1 } else e) := by
  unfold rejectEntry
  split_ifs <;> rfl

theorem addCommentUpdate_store (cfg : Config) (store : List Entry) (id : String)
    (text : String) (emailOk : Bool) (old : Entry) :
    (addCommentUpdate cfg store id text emailOk old).store =
      store.map (fun e => if e.id = id then { e with comment := text } else e) := by
  unfold addCommentUpdate
  split_ifs <;> rfl

/-! ### Further helper lemmas -/

theorem findEntry_some_id {store : List Entry} {id : String} {old : Entry}
    (h : findEntry store id = some old) : old.id = id := by
  have := List.find?_some h
  simpa using this

/-- A per-row update that does not touch the id column commutes with the
row lookup. -/
theorem findEntry_map_update {store : List Entry} {id : String}
    {f : Entry → Entry} (hpres : ∀ e, (f e).id = e.id) :
    findEntry (store.map f) id = (findEntry store id).map f := by
  unfold findEntry
  rw [List.find?_map]
  have hfun : ((fun e => decide (e.id = id)) ∘ f) = fun e : Entry => decide (e.id = id) := by
    funext e
    simp [Function.comp, hpres e]
  rw [hfun]

theorem lastSubmissionTime_eq_none {store : List Entry} {ip : String}
    (h : ∀ e ∈ store, e.ip ≠ ip) : lastSubmissionTime store ip = none := by
  unfold lastSubmissionTime
  rw [List.max?_eq_none_iff, List.map_eq_nil_iff, List.filter_eq_nil_iff]
  intro e he
  simpa using h e he

theorem createEntryInsert_status {cfg : Config} {store : List Entry}
    {sub : Submission} {ip : String} {now : Int} {newId : String}
    {emailOk : Bool} :
    (createEntryInsert cfg store sub ip now newId emailOk).status = 500 ∨
    (createEntryInsert cfg store sub ip now newId emailOk).status = 201 := by
  unfold createEntryInsert
  split_ifs <;> simp

theorem createEntryInsert_body_ne {cfg : Config} {store : List Entry}
    {sub : Submission} {ip : String} {now : Int} {newId : String}
    {emailOk : Bool} (tag : String) :
    (createEntryInsert cfg store sub ip now newId emailOk).body ≠ .errorTag tag := by
  unfold createEntryInsert
  split_ifs <;> simp

theorem forall₂_map_of_mem {α : Type} {R : α → α → Prop} {f : α → α} :
    ∀ {l : List α}, (∀ a ∈ l, R a (f a)) → List.Forall₂ R l (l.map f) := by
  intro l
  induction l with
  | nil => intro h; exact List.Forall₂.nil
  | cons a as ih =>
    intro h
    exact List.Forall₂.cons (h a (by simp))
      (ih (fun x hx => h x (by simp [hx])))

theorem forall₂_self_of_mem {α : Type} {R : α → α → Prop} :
    ∀ {l : List α}, (∀ a ∈ l, R a a) → List.Forall₂ R l l := by
  intro l
  induction l with
  | nil => intro h; exact List.Forall₂.nil
  | cons a as ih =>
    intro h
    exact List.Forall₂.cons (h a (by simp))
      (ih (fun x hx => h x (by simp [hx])))

theorem createEntryInsert_dropLogs (cfg : Config) (store : List Entry)
    (sub : Submission) (ip : String) (now : Int) (newId : String) (b : Bool) :
    dropLogs (createEntryInsert cfg store sub ip now newId b) =
      dropLogs (createEntryInsert cfg store sub ip now newId true) := by
  unfold createEntryInsert
  split_ifs <;> rfl

theorem createEntry_dropLogs (cfg : Config) (store : List Entry)
    (sub : Submission) (req : RequestMeta) (now : Int) (newId : String)
    (b : Bool) :
    dropLogs (createEntry cfg store sub req now newId b) =
      dropLogs (createEntry cfg store sub req now newId true) := by
  by_cases h1 : sub.code ≠ cfg.antiSpamCode
  · rw [createEntry_eq_badCode store req now newId b h1,
      createEntry_eq_badCode store req now newId true h1]
  · have hcode : sub.code = cfg.antiSpamCode := not_not.mp h1
    rcases hv : validateEntry sub.name sub.email sub.message with _ | _
    · rw [createEntry_eq_badValidation store req now newId b hcode hv,
        createEntry_eq_badValidation store req now newId true hcode hv]
    · rcases hl : lastSubmissionTime store (resolveIP req) with _ | t
      · rw [createEntry_eq_insert_none store req now newId b hcode hv hl,
          createEntry_eq_insert_none store req now newId true hcode hv hl]
        exact createEntryInsert_dropLogs cfg store sub (resolveIP req) now newId b
      · by_cases hwait : now - t < cfg.entryWaitDuration
        · rw [createEntry_eq_limited store req now newId b hcode hv hl hwait,
            createEntry_eq_limited store req now newId true hcode hv hl hwait]
        · rw [createEntry_eq_insert_some store req now newId b hcode hv hl hwait,
            createEntry_eq_insert_some store req now newId true hcode hv hl hwait]
          exact createEntryInsert_dropLogs cfg store sub (resolveIP req) now newId b

theorem approveEntry_dropLogs (cfg : Config) (store : List Entry)
    (id : String) (b : Bool) :
    dropLogs (approveEntry cfg store id b) =
      dropLogs (approveEntry cfg store id true) := by
  rcases hf : findEntry store id with _ | old
  · rw [approveEntry_eq_none cfg b hf, approveEntry_eq_none cfg true hf]
  · rw [approveEntry_eq_found cfg b hf, approveEntry_eq_found cfg true hf]
    unfold approveEntryFound
    split_ifs <;> rfl

theorem addComment_dropLogs (cfg : Config) (store : List Entry)
    (id : String) (reqBody : Option String) (b : Bool) :
    dropLogs (addComment cfg store id reqBody b) =
      dropLogs (addComment cfg store id reqBody true) := by
  rcases hf : findEntry store id with _ | old
  · rw [addComment_eq_none cfg reqBody b hf, addComment_eq_none cfg reqBody true hf]
  · rcases reqBody with _ | text
    · unfold addComment
      rw [hf]
    · rw [addComment_eq_found cfg text b hf, addComment_eq_found cfg text true hf]
      unfold addCommentUpdate
      split_ifs <;> rfl

theorem createEntryInsert_failLog (cfg : Config) (store : List Entry)
    (sub : Submission) (ip : String) (now : Int) (newId : String)
    (h : (createEntryInsert cfg store sub ip now newId false).mails ≠ []) :
    LogLine.adminMailFailed ∈ (createEntryInsert cfg store sub ip now newId false).logs := by
  revert h
  unfold createEntryInsert
  by_cases hdup : store.any (fun e => e.id = newId) = true
  · rw [if_pos hdup]
    intro h
    exact absurd rfl h
  · rw [if_neg hdup]
    intro _
    simp

theorem createEntry_failLog (cfg : Config) (store : List Entry)
    (sub : Submission) (req : RequestMeta) (now : Int) (newId : String)
    (h : (createEntry cfg store sub req now newId false).mails ≠ []) :
    LogLine.adminMailFailed ∈ (createEntry cfg store sub req now newId false).logs := by
  by_cases h1 : sub.code ≠ cfg.antiSpamCode
  · rw [createEntry_eq_badCode store req now newId false h1] at h
    exact absurd rfl h
  · have hcode : sub.code = cfg.antiSpamCode := not_not.mp h1
    rcases hv : validateEntry sub.name sub.email sub.message with _ | _
    · rw [createEntry_eq_badValidation store req now newId false hcode hv] at h
      exact absurd rfl h
    · rcases hl : lastSubmissionTime store (resolveIP req) with _ | t
      · rw [createEntry_eq_insert_none store req now newId false hcode hv hl] at h ⊢
        exact createEntryInsert_failLog cfg store sub (resolveIP req) now newId h
      · by_cases hwait : now - t < cfg.entryWaitDuration
        · rw [createEntry_eq_limited store req now newId false hcode hv hl hwait] at h
          exact absurd rfl h
        · rw [createEntry_eq_insert_some store req now newId false hcode hv hl hwait] at h ⊢
          exact createEntryInsert_failLog cfg store sub (resolveIP req) now newId h

theorem approveEntry_failLog (cfg : Config) (store : List Entry) (id : String)
    (h : (approveEntry cfg store id false).mails ≠ []) :
    LogLine.authorMailFailed ∈ (approveEntry cfg store id false).logs := by
  rcases hf : findEntry store id with _ | old
  · rw [approveEntry_eq_none cfg false hf] at h
    exact absurd rfl h
  · rw [approveEntry_eq_found cfg false hf] at h ⊢
    revert h
    unfold approveEntryFound
    by_cases h404 : rowsWithId store id = 0
    · rw [if_pos h404]
      intro h
      exact absurd rfl h
    · rw [if_neg h404]
      by_cases hn : old.email ≠ "" ∧ old.approved = 0
      · rw [if_pos hn]
        intro _
        simp
      · rw [if_neg hn]
        intro h
        exact absurd rfl h

theorem addComment_failLog (cfg : Config) (store : List Entry) (id : String)
    (reqBody : Option String)
    (h : (addComment cfg store id reqBody false).mails ≠ []) :
    LogLine.authorMailFailed ∈ (addComment cfg store id reqBody false).logs := by
  rcases hf : findEntry store id with _ | old
  · rw [addComment_eq_none cfg reqBody false hf] at h
    exact absurd rfl h
  · rcases reqBody with _ | text
    · unfold addComment at h
      rw [hf] at h
      exact absurd rfl h
    · rw [addComment_eq_found cfg text false hf] at h ⊢
      revert h
      unfold addCommentUpdate
      by_cases h404 : rowsWithId store id = 0
      · rw [if_pos h404]
        intro h
        exact absurd rfl h
      · rw [if_neg h404]
        by_cases hn : old.email ≠ "" ∧ old.comment = ""
        · rw [if_pos hn]
          intro _
          simp
        · rw [if_neg hn]
          intro h
          exact absurd rfl h

/-! ### Claim theorems -/

/-- Claim C1: the claim says Approve/Reject/Comment on a non-existent id all
fail with not-found (HTTP 404), send no notification and leave the store
unchanged. The code disagrees on the status: on a store holding only entry
"a1", Approve("missing") and Comment("missing", ...) answer 500 (the initial
`db.Get` fails with `sql.ErrNoRows`, which, unlike in `getEntry`, is not
special-cased to 404; the "Entry not found" branches at src/main.go:342 and
414 are unreachable for a missing id), while Reject("missing") does answer
404. No notification is sent and the store is unchanged in all three cases. -/
theorem C1_missing_id_behavior :
    (approveEntry cfgEx [entryEx] "missing" true).status = 500 ∧
    (approveEntry cfgEx [entryEx] "missing" true).store = [entryEx] ∧
    (approveEntry cfgEx [entryEx] "missing" true).mails = [] ∧
    (addComment cfgEx [entryEx] "missing" (some "Danke") true).status = 500 ∧
    (addComment cfgEx [entryEx] "missing" (some "Danke") true).store = [entryEx] ∧
    (addComment cfgEx [entryEx] "missing" (some "Danke") true).mails = [] ∧
    (rejectEntry [entryEx] "missing").status = 404 ∧
    (rejectEntry [entryEx] "missing").store = [entryEx] ∧
    (rejectEntry [entryEx] "missing").mails = [] := by decide

/-- Claim C2, counterexample: the claim says `approved` only ever transitions
0 to 1 (Approve) or 0 to -1 (Reject). On the reachable store `storeRejected`
(empty store, one valid submission, then Reject), the entry has approved = -1,
and a subsequent Approve moves it to 1: a -1 to 1 transition, refuting the
claim as stated. -/
theorem C2_counterexample :
    (findEntry storeRejected "id1").map Entry.approved = some (-1) ∧
    (findEntry (approveEntry cfgEx storeRejected "id1" true).store "id1").map
        Entry.approved = some 1 := by decide

/-- Claim C2, amended: Approve always sets the `approved` of every row with
the given id to 1 and Reject always sets it to -1, whatever the prior value
(so -1 to 1 and 1 to -1 transitions occur); re-applying a decision that
already holds leaves the stored rows unchanged; Approve sends no notification
unless the previously read value was exactly 0, and Reject never sends one. -/
theorem C2_amended_transitions (cfg : Config) (store : List Entry) (id : String)
    (emailOk : Bool) :
    (∀ e ∈ (approveEntry cfg store id emailOk).store, e.id = id → e.approved = 1) ∧
    (∀ e ∈ (rejectEntry store id).store, e.id = id → e.approved = -1) ∧
    ((∀ e ∈ store, e.id = id → e.approved = 1) →
      (approveEntry cfg store id emailOk).store = store) ∧
    ((∀ e ∈ store, e.id = id → e.approved = -1) →
      (rejectEntry store id).store = store) ∧
    (∀ old, findEntry store id = some old → old.approved ≠ 0 →
      (approveEntry cfg store id emailOk).mails = []) ∧
    (rejectEntry store id).mails = [] := by
  refine ⟨?_, ?_, ?_, ?_, ?_, ?_⟩
  · intro e he hid
    rcases hf : findEntry store id with _ | old
    · rw [approveEntry_eq_none cfg emailOk hf] at he
      exact absurd hid (findEntry_eq_none_iff.mp hf e he)
    · rw [approveEntry_eq_found cfg emailOk hf, approveEntryFound_store] at he
      obtain ⟨a, ha, rfl⟩ := List.mem_map.mp he
      by_cases h : a.id = id
      · simp [h]
      · simp only [if_neg h] at hid
        exact absurd hid h
  · intro e he hid
    rw [rejectEntry_store] at he
    obtain ⟨a, ha, rfl⟩ := List.mem_map.mp he
    by_cases h : a.id = id
    · simp [h]
    · simp only [if_neg h] at hid
      exact absurd hid h
  · intro hall
    rcases hf : findEntry store id with _ | old
    · rw [approveEntry_eq_none cfg emailOk hf]; rfl
    · rw [approveEntry_eq_found cfg emailOk hf, approveEntryFound_store]
      conv_rhs => rw [← List.map_id store]
      refine List.map_congr_left ?_
      intro a ha
      by_cases h : a.id = id
      · rw [if_pos h, Entry.setApproved_self (hall a ha h)]; rfl
      · rw [if_neg h]; rfl
  · intro hall
    rw [rejectEntry_store]
    conv_rhs => rw [← List.map_id store]
    refine List.map_congr_left ?_
    intro a ha
    by_cases h : a.id = id
    · rw [if_pos h, Entry.setApproved_self (hall a ha h)]; rfl
    · rw [if_neg h]; rfl
  · intro old hf h0
    rw [approveEntry_eq_found cfg emailOk hf]
    unfold approveEntryFound
    rw [if_neg (rowsWithId_ne_zero_of_found hf),
      if_neg (fun hc => h0 hc.2)]
  · unfold rejectEntry
    split_ifs <;> rfl

/-- Witness for C2's amended theorem at a concrete input: a store holding one
already-approved entry is unchanged by a second Approve, and no further
notification is attempted. -/
theorem C2_amended_transitions_witness :
    (approveEntry cfgEx [{ entryEx with approved := 1 }] "a1" true).store =
        [{ entryEx with approved := 1 }] ∧
    (approveEntry cfgEx [{ entryEx with approved := 1 }] "a1" true).mails = [] := by
  have h := C2_amended_transitions cfgEx [{ entryEx with approved := 1 }] "a1" true
  exact ⟨h.2.2.1 (by decide),
    h.2.2.2.2.1 { entryEx with approved := 1 } (by decide) (by decide)⟩

/-- Claim C3: the public listing returns exactly the stored entries with
approved = 1 (as a permutation of their projections), ordered by created_at
descending, and its rows carry only name, message, approved, comment and
created_at: the projection is invariant under any change of the id and ip
columns, so neither can be recovered from the output, and every returned row
has approved = 1. -/
theorem C3_list_approved (store : List Entry) :
    (getApprovedEntries store).Perm
        ((store.filter (fun e => e.approved = 1)).map projectPublic) ∧
    (getApprovedEntries store).Pairwise (fun a b => b.createdAt ≤ a.createdAt) ∧
    (∀ p ∈ getApprovedEntries store, p.approved = 1) ∧
    (∀ e newId newIp, projectPublic { e with id := newId, ip := newIp } =
      projectPublic e) := by
  refine ⟨?_, ?_, ?_, ?_⟩
  · exact List.Perm.map projectPublic (List.mergeSort_perm _ _)
  · have hp : ((store.filter (fun e => e.approved = 1)).mergeSort createdDesc).Pairwise
        (fun a b => createdDesc a b) := by
      refine List.sorted_mergeSort ?_ ?_ _
      · intro a b c h1 h2
        simp only [createdDesc, decide_eq_true_eq] at h1 h2 ⊢
        exact le_trans h2 h1
      · intro a b
        simp only [createdDesc, Bool.or_eq_true, decide_eq_true_eq]
        exact le_total b.createdAt a.createdAt
    unfold getApprovedEntries
    refine List.pairwise_map.mpr ?_
    refine hp.imp ?_
    intro a b h
    simpa [createdDesc, projectPublic] using h
  · intro p hp
    unfold getApprovedEntries at hp
    obtain ⟨e, he, rfl⟩ := List.mem_map.mp hp
    rw [List.mem_mergeSort] at he
    have := List.of_mem_filter he
    simpa [projectPublic] using this
  · intro e newId newIp
    rfl

/-- Witness for C3 at a concrete input: the listed projection of an approved
sample entry has approved = 1, and the projection forgets id and ip. -/
theorem C3_list_approved_witness :
    (projectPublic { entryEx with approved := 1 }).approved = 1 ∧
    projectPublic { entryEx with id := "zzz", ip := "9.9.9.9" } = projectPublic entryEx :=
  ⟨(C3_list_approved [{ entryEx with approved := 1 }]).2.2.1
      (projectPublic { entryEx with approved := 1 })
      (by simp [getApprovedEntries]),
   (C3_list_approved [entryEx]).2.2.2 entryEx "zzz" "9.9.9.9"⟩

/-- Claim C4: for a stored entry, Approve attempts an author notification
exactly when the previously read approved value is 0 and the email is
non-empty (one mail then, zero otherwise), and a second Approve of the same
id attempts none, since the re-read approved value is then 1. -/
theorem C4_approve_notification (cfg : Config) (store : List Entry)
    (id : String) (emailOk : Bool) (old : Entry)
    (hf : findEntry store id = some old) :
    (approveEntry cfg store id emailOk).mails.length =
      (if old.approved = 0 ∧ old.email ≠ "" then 1 else 0) ∧
    (approveEntry cfg (approveEntry cfg store id emailOk).store id
        emailOk).mails.length = 0 := by
  have hpres : ∀ e : Entry, ((fun e => if e.id = id then { e with approved := 1 } else e) e).id = e.id := by
    intro e
    by_cases h : e.id = id <;> simp [h]
  constructor
  · rw [approveEntry_eq_found cfg emailOk hf]
    unfold approveEntryFound
    rw [if_neg (rowsWithId_ne_zero_of_found hf)]
    by_cases hc : old.email ≠ "" ∧ old.approved = 0
    · have hc2 : old.approved = 0 ∧ old.email ≠ "" := ⟨hc.2, hc.1⟩
      rw [if_pos hc, if_pos hc2]
      rfl
    · have hc2 : ¬(old.approved = 0 ∧ old.email ≠ "") := fun h => hc ⟨h.2, h.1⟩
      rw [if_neg hc, if_neg hc2]
      rfl
  · have hstore : (approveEntry cfg store id emailOk).store =
        store.map (fun e => if e.id = id then { e with approved := 1 } else e) := by
      rw [approveEntry_eq_found cfg emailOk hf, approveEntryFound_store]
    rw [hstore]
    have hf2 : findEntry
        (store.map (fun e => if e.id = id then { e with approved := 1 } else e)) id =
        some { old with approved := 1 } := by
      rw [findEntry_map_update hpres, hf]
      simp [findEntry_some_id hf]
    rw [approveEntry_eq_found cfg emailOk hf2]
    unfold approveEntryFound
    rw [if_neg (rowsWithId_ne_zero_of_found hf2),
      if_neg (fun hc => by simpa using hc.2)]
    rfl

/-- Witness for C4 at a concrete input: approving the pending sample entry
attempts exactly one mail; approving it again attempts none. -/
theorem C4_approve_notification_witness :
    (approveEntry cfgEx [entryEx] "a1" true).mails.length = 1 ∧
    (approveEntry cfgEx (approveEntry cfgEx [entryEx] "a1" true).store "a1"
        true).mails.length = 0 := by
  have h := C4_approve_notification cfgEx [entryEx] "a1" true entryEx (by decide)
  refine ⟨?_, h.2⟩
  rw [h.1]
  decide

/-- Claim C5: the claim says a second Comment call on the same entry sends no
further author notification, regardless of the text of either call. The code
guards only on the previously stored comment being empty, so commenting with
empty text notifies without leaving the empty state: on an entry with empty
comment and non-empty email, Comment(id, "") sends one mail and the following
Comment(id, "Vielen Dank!") sends one more, contradicting the claim (and the
code's own comment "Don't send mail multiple times for the same post"). -/
theorem C5_empty_comment_renotifies :
    (addComment cfgEx [entryEx] "a1" (some "") true).mails.length = 1 ∧
    (addComment cfgEx (addComment cfgEx [entryEx] "a1" (some "") true).store "a1"
        (some "Vielen Dank!") true).mails.length = 1 := by decide

/-- Claim C6: for a submission that reaches the rate-limit gate (correct
anti-spam code and valid fields, the two checks that precede it), Submit is
rejected with the postlimit signal (HTTP 429, error tag "postlimit") exactly
when the originating address has a prior stored submission whose greatest
created_at satisfies now - t < the configured wait duration; a first-ever
submission from an address never hits this rejection; and the originating
address is the forwarded-for header when present, else the transport peer
host. -/
theorem C6_rate_limit (cfg : Config) (store : List Entry) (sub : Submission)
    (req : RequestMeta) (now : Int) (newId : String) (emailOk : Bool)
    (hcode : sub.code = cfg.antiSpamCode)
    (hval : validateEntry sub.name sub.email sub.message = true) :
    (((createEntry cfg store sub req now newId emailOk).status = 429 ∧
      (createEntry cfg store sub req now newId emailOk).body = .errorTag "postlimit") ↔
      (∃ t, lastSubmissionTime store (resolveIP req) = some t ∧
        now - t < cfg.entryWaitDuration)) ∧
    ((∀ e ∈ store, e.ip ≠ resolveIP req) →
      (createEntry cfg store sub req now newId emailOk).status ≠ 429) ∧
    (req.xff ≠ "" → resolveIP req = req.xff) ∧
    (req.xff = "" → resolveIP req = req.remoteHost) := by
  refine ⟨?_, ?_, ?_, ?_⟩
  · rcases hl : lastSubmissionTime store (resolveIP req) with _ | t
    · rw [createEntry_eq_insert_none store req now newId emailOk hcode hval hl]
      refine iff_of_false ?_ ?_
      · intro h
        rcases createEntryInsert_status with h5 | h2
        · rw [h5] at h; exact absurd h.1 (by decide)
        · rw [h2] at h; exact absurd h.1 (by decide)
      · rintro ⟨t2, ht2, _⟩
        exact Option.noConfusion ht2
    · by_cases hwait : now - t < cfg.entryWaitDuration
      · rw [createEntry_eq_limited store req now newId emailOk hcode hval hl hwait]
        exact iff_of_true ⟨rfl, rfl⟩ ⟨t, rfl, hwait⟩
      · rw [createEntry_eq_insert_some store req now newId emailOk hcode hval hl hwait]
        refine iff_of_false ?_ ?_
        · intro h
          rcases createEntryInsert_status with h5 | h2
          · rw [h5] at h; exact absurd h.1 (by decide)
          · rw [h2] at h; exact absurd h.1 (by decide)
        · rintro ⟨t2, ht2, hw2⟩
          obtain rfl := Option.some.inj ht2
          exact hwait hw2
  · intro hfresh
    rw [createEntry_eq_insert_none store req now newId emailOk hcode hval
      (lastSubmissionTime_eq_none hfresh)]
    rcases createEntryInsert_status with h5 | h2
    · rw [h5]; decide
    · rw [h2]; decide
  · intro h
    unfold resolveIP
    rw [if_pos h]
  · intro h
    unfold resolveIP
    rw [if_neg (fun hne => hne h)]

/-- Witness for C6 at concrete inputs: with a 60 second wait and a stored
entry from 1.2.3.4 at time 100, a second otherwise-valid submission from the
same peer at time 130 answers 429, while the same submission carrying a
forwarded-for header naming a fresh address does not. -/
theorem C6_rate_limit_witness :
    (createEntry cfgEx [entryEx] subEx reqEx 130 "id2" true).status = 429 ∧
    (createEntry cfgEx [entryEx] subEx { xff := "9.9.9.9", remoteHost := "1.2.3.4" }
        130 "id2" true).status ≠ 429 := by
  have h1 := C6_rate_limit cfgEx [entryEx] subEx reqEx 130 "id2" true
    (by decide) (by decide)
  have h2 := C6_rate_limit cfgEx [entryEx] subEx
    { xff := "9.9.9.9", remoteHost := "1.2.3.4" } 130 "id2" true
    (by decide) (by decide)
  exact ⟨(h1.1.mpr ⟨100, by decide, by decide⟩).1, h2.2.1 (by decide)⟩

/-- Claim C7: for a submission with the correct anti-spam code, Submit
answers 400 with the single generic "validation" error tag and an unchanged
store exactly when the name byte length is below 3 or above 100, or the
email byte length is below 6 or above 100, or the email does not match the
regex (read as `MatchesEmailRegex`), or the message byte length is below 10
or above 2000. The error body is the same constant tag in every case, so no
field-specific reason reaches the caller. -/
theorem C7_validation (cfg : Config) (store : List Entry) (sub : Submission)
    (req : RequestMeta) (now : Int) (newId : String) (emailOk : Bool)
    (hcode : sub.code = cfg.antiSpamCode) :
    ((createEntry cfg store sub req now newId emailOk).status = 400 ∧
     (createEntry cfg store sub req now newId emailOk).body = .errorTag "validation" ∧
     (createEntry cfg store sub req now newId emailOk).store = store) ↔
      (goLen sub.name < 3 ∨ 100 < goLen sub.name ∨
       goLen sub.email < 6 ∨ 100 < goLen sub.email ∨
       ¬ MatchesEmailRegex sub.email ∨
       goLen sub.message < 10 ∨ 2000 < goLen sub.message) := by
  have hval_iff : validateEntry sub.name sub.email sub.message = true ↔
      (3 ≤ goLen sub.name ∧ goLen sub.name ≤ 100 ∧
       6 ≤ goLen sub.email ∧ goLen sub.email ≤ 100 ∧
       10 ≤ goLen sub.message ∧ goLen sub.message ≤ 2000 ∧
       MatchesEmailRegex sub.email) := by
    unfold validateEntry nameMinLen nameMaxLen emailMinLen emailMaxLen
      messageMinLen messageMaxLen
    simp only [Bool.and_eq_true, decide_eq_true_eq, isValidEmail_iff_matches]
    tauto
  by_cases hv : validateEntry sub.name sub.email sub.message = true
  · refine iff_of_false ?_ ?_
    · rcases hl : lastSubmissionTime store (resolveIP req) with _ | t
      · rw [createEntry_eq_insert_none store req now newId emailOk hcode hv hl]
        intro h
        exact absurd h.2.1 (createEntryInsert_body_ne "validation")
      · by_cases hwait : now - t < cfg.entryWaitDuration
        · rw [createEntry_eq_limited store req now newId emailOk hcode hv hl hwait]
          intro h
          exact absurd h.2.1 (by simp)
        · rw [createEntry_eq_insert_some store req now newId emailOk hcode hv hl hwait]
          intro h
          exact absurd h.2.1 (createEntryInsert_body_ne "validation")
    · obtain ⟨h1, h2, h3, h4, h5, h6, hM⟩ := hval_iff.mp hv
      rintro (h | h | h | h | h | h | h)
      · omega
      · omega
      · omega
      · omega
      · exact h hM
      · omega
      · omega
  · refine iff_of_true ?_ ?_
    · unfold createEntry
      rw [if_neg (fun hne => hne hcode), Bool.not_eq_true] at *
      rw [hv]
      exact ⟨rfl, rfl, rfl⟩
    · have hnc : ¬(3 ≤ goLen sub.name ∧ goLen sub.name ≤ 100 ∧
          6 ≤ goLen sub.email ∧ goLen sub.email ≤ 100 ∧
          10 ≤ goLen sub.message ∧ goLen sub.message ≤ 2000 ∧
          MatchesEmailRegex sub.email) := fun hand => hv (hval_iff.mpr hand)
      by_contra hno
      push_neg at hno
      obtain ⟨n1, n2, n3, n4, nM, n5, n6⟩ := hno
      exact hnc ⟨by omega, by omega, by omega, by omega, by omega, by omega, nM⟩

/-- Witness for C7 at a concrete input: the sample submission with the
two-character name "ab" (and correct code) is refused with the generic
validation tag and persists nothing. -/
theorem C7_validation_witness :
    (createEntry cfgEx [] { subEx with name := "ab" } reqEx 100 "id1" true).status = 400 ∧
    (createEntry cfgEx [] { subEx with name := "ab" } reqEx 100 "id1" true).body =
      .errorTag "validation" ∧
    (createEntry cfgEx [] { subEx with name := "ab" } reqEx 100 "id1" true).store = [] := by
  have h := C7_validation cfgEx [] { subEx with name := "ab" } reqEx 100 "id1" true
    (by decide)
  exact h.mpr (Or.inl (by decide))

/-- Claim C8: a submission whose anti-spam code differs from the configured
secret always yields status 400 with the "code" error tag, an unchanged
store, no mail and no log, whatever the other fields, the request metadata,
the time, the generated id or the mail transport: the code gate is the first
check in `createEntry`. -/
theorem C8_spam_code_gate (cfg : Config) (store : List Entry) (sub : Submission)
    (req : RequestMeta) (now : Int) (newId : String) (emailOk : Bool)
    (h : sub.code ≠ cfg.antiSpamCode) :
    createEntry cfg store sub req now newId emailOk =
      { status := 400, body := .errorTag "code", store := store,
        mails := [], logs := [] } := by
  unfold createEntry
  rw [if_pos h]

/-- Witness for C8 at a concrete input: the sample submission with code
"wrong" against configured secret "s3cret". -/
theorem C8_spam_code_gate_witness :
    createEntry cfgEx [] { subEx with code := "wrong" } reqEx 100 "id1" true =
      { status := 400, body := .errorTag "code", store := [],
        mails := [], logs := [] } :=
  C8_spam_code_gate cfgEx [] { subEx with code := "wrong" } reqEx 100 "id1" true
    (by decide)

/-- Claim C9: for Submit, Approve and Comment, the caller-visible outcome
(status, body, resulting store, and even the set of attempted notifications)
is identical whether the mail transport succeeds (`emailOk = true`) or fails
(`emailOk = false`): the two runs agree after `dropLogs`. A transport failure
is only logged: whenever the failing run attempted a mail, its log contains
the corresponding failure line. -/
theorem C9_mail_failure_transparent (cfg : Config) (store : List Entry)
    (sub : Submission) (req : RequestMeta) (now : Int) (newId : String)
    (id : String) (reqBody : Option String) :
    (dropLogs (createEntry cfg store sub req now newId false) =
      dropLogs (createEntry cfg store sub req now newId true)) ∧
    (dropLogs (approveEntry cfg store id false) =
      dropLogs (approveEntry cfg store id true)) ∧
    (dropLogs (addComment cfg store id reqBody false) =
      dropLogs (addComment cfg store id reqBody true)) ∧
    ((createEntry cfg store sub req now newId false).mails ≠ [] →
      LogLine.adminMailFailed ∈ (createEntry cfg store sub req now newId false).logs) ∧
    ((approveEntry cfg store id false).mails ≠ [] →
      LogLine.authorMailFailed ∈ (approveEntry cfg store id false).logs) ∧
    ((addComment cfg store id reqBody false).mails ≠ [] →
      LogLine.authorMailFailed ∈ (addComment cfg store id reqBody false).logs) :=
  ⟨createEntry_dropLogs cfg store sub req now newId false,
   approveEntry_dropLogs cfg store id false,
   addComment_dropLogs cfg store id reqBody false,
   createEntry_failLog cfg store sub req now newId,
   approveEntry_failLog cfg store id,
   addComment_failLog cfg store id reqBody⟩

/-- Witness for C9 at concrete inputs: a successful submission with a failing
transport logs the admin-mail failure, and approving the pending sample entry
with a failing transport logs the author-mail failure. -/
theorem C9_mail_failure_transparent_witness :
    LogLine.adminMailFailed ∈ (createEntry cfgEx [] subEx reqEx 100 "id1" false).logs ∧
    LogLine.authorMailFailed ∈ (approveEntry cfgEx [entryEx] "a1" false).logs := by
  have h1 := C9_mail_failure_transparent cfgEx [] subEx reqEx 100 "id1" "a1" (some "x")
  have h2 := C9_mail_failure_transparent cfgEx [entryEx] subEx reqEx 100 "id1" "a1" (some "x")
  exact ⟨h1.2.2.2.1 (by decide), h2.2.2.2.2.1 (by decide)⟩

/-- Claim C10: a successful Approve or Reject rewrites only the `approved`
column of the rows with the given id, and a successful Comment only their
`comment` column; all other columns of those rows, and every row whose id
differs, are unchanged, and no row is added, removed or reordered (stated as
a positionwise `Forall₂` between the old and new store). -/
theorem C10_frame (cfg : Config) (store : List Entry) (id : String)
    (emailOk : Bool) (text : String)
    (ha : (approveEntry cfg store id emailOk).status = 204)
    (hr : (rejectEntry store id).status = 204)
    (hc : (addComment cfg store id (some text) emailOk).status = 204) :
    List.Forall₂ (fun a b => AgreesExceptApproved a b ∧ (a.id ≠ id → b = a))
      store (approveEntry cfg store id emailOk).store ∧
    List.Forall₂ (fun a b => AgreesExceptApproved a b ∧ (a.id ≠ id → b = a))
      store (rejectEntry store id).store ∧
    List.Forall₂ (fun a b => AgreesExceptComment a b ∧ (a.id ≠ id → b = a))
      store (addComment cfg store id (some text) emailOk).store := by
  refine ⟨?_, ?_, ?_⟩
  · rcases hf : findEntry store id with _ | old
    · rw [approveEntry_eq_none cfg emailOk hf]
      refine forall₂_self_of_mem ?_
      intro a ha2
      exact ⟨⟨rfl, rfl, rfl, rfl, rfl, rfl, rfl⟩, fun _ => rfl⟩
    · rw [approveEntry_eq_found cfg emailOk hf, approveEntryFound_store]
      refine forall₂_map_of_mem ?_
      intro a ha2
      by_cases h : a.id = id
      · rw [if_pos h]
        exact ⟨⟨rfl, rfl, rfl, rfl, rfl, rfl, rfl⟩, fun hne => absurd h hne⟩
      · rw [if_neg h]
        exact ⟨⟨rfl, rfl, rfl, rfl, rfl, rfl, rfl⟩, fun _ => rfl⟩
  · rw [rejectEntry_store]
    refine forall₂_map_of_mem ?_
    intro a ha2
    by_cases h : a.id = id
    · rw [if_pos h]
      exact ⟨⟨rfl, rfl, rfl, rfl, rfl, rfl, rfl⟩, fun hne => absurd h hne⟩
    · rw [if_neg h]
      exact ⟨⟨rfl, rfl, rfl, rfl, rfl, rfl, rfl⟩, fun _ => rfl⟩
  · rcases hf : findEntry store id with _ | old
    · rw [addComment_eq_none cfg (some text) emailOk hf]
      refine forall₂_self_of_mem ?_
      intro a ha2
      exact ⟨⟨rfl, rfl, rfl, rfl, rfl, rfl, rfl⟩, fun _ => rfl⟩
    · rw [addComment_eq_found cfg text emailOk hf, addCommentUpdate_store]
      refine forall₂_map_of_mem ?_
      intro a ha2
      by_cases h : a.id = id
      · rw [if_pos h]
        exact ⟨⟨rfl, rfl, rfl, rfl, rfl, rfl, rfl⟩, fun hne => absurd h hne⟩
      · rw [if_neg h]
        exact ⟨⟨rfl, rfl, rfl, rfl, rfl, rfl, rfl⟩, fun _ => rfl⟩

/-- Witness for C10 at a concrete input: approving, rejecting and commenting
the stored sample entry all succeed with 204, and the frame property holds
for the approve run. -/
theorem C10_frame_witness :
    List.Forall₂ (fun a b => AgreesExceptApproved a b ∧ (a.id ≠ "a1" → b = a))
      [entryEx] (approveEntry cfgEx [entryEx] "a1" true).store :=
  (C10_frame cfgEx [entryEx] "a1" true "Danke"
    (by decide) (by decide) (by decide)).1

end GoGuestBook
